import Mathlib

/-!
Verification of the renderdoc version-capability lattice, loader singleton,
handle conversion layer and overlay bit-set, embedded shallowly from the
Rust sources (`src/version.rs`, `src/loader.rs`, `src/renderdoc.rs`,
`src/overlay_bits.rs`).
-/

/-- The fixed list of API version tags declared in `src/version.rs`
(`pub enum V100 {} ... pub enum V160 {}`), in source order. -/
inductive VersionTag where
  | V100
  | V101
  | V102
  | V110
  | V111
  | V112
  | V120
  | V130
  | V140
  | V141
  | V142
  | V150
  | V160
deriving DecidableEq, Fintype, Repr

open VersionTag

/-- Position of a tag in the ordered list of the `define_versions!` invocation. -/
def tagIdx : VersionTag → Nat
  | .V100 => 0
  | .V101 => 1
  | .V102 => 2
  | .V110 => 3
  | .V111 => 4
  | .V112 => 5
  | .V120 => 6
  | .V130 => 7
  | .V140 => 8
  | .V141 => 9
  | .V142 => 10
  | .V150 => 11
  | .V160 => 12

/-- Successor in the ordered tag list (the next, newer tag), when it exists. -/
def succTag : VersionTag → Option VersionTag
  | .V100 => some .V101
  | .V101 => some .V102
  | .V102 => some .V110
  | .V110 => some .V111
  | .V111 => some .V112
  | .V112 => some .V120
  | .V120 => some .V130
  | .V130 => some .V140
  | .V140 => some .V141
  | .V141 => some .V142
  | .V142 => some .V150
  | .V150 => some .V160
  | .V160 => none

/-- Immediate predecessor in the ordered tag list (the previous, older tag).
`V100`, the oldest tag, has none. -/
def prevTag : VersionTag → Option VersionTag
  | .V100 => none
  | .V101 => some .V100
  | .V102 => some .V101
  | .V110 => some .V102
  | .V111 => some .V110
  | .V112 => some .V111
  | .V120 => some .V112
  | .V130 => some .V120
  | .V140 => some .V130
  | .V141 => some .V140
  | .V142 => some .V141
  | .V150 => some .V142
  | .V160 => some .V150

/-- `from_digits` from `src/version.rs`: `major as c_uint * 10_000 + minor as
c_uint * 100 + patch as c_uint`, on `u8` inputs widened to `u32`; the `% 256`
coercions model the `u8` domain and the `% 2^32` the `c_uint` arithmetic. -/
def from_digits (major minor patch : Nat) : Nat :=
  ((major % 256 * 10000 % 2 ^ 32 + minor % 256 * 100 % 2 ^ 32) % 2 ^ 32
    + patch % 256) % 2 ^ 32

/-- The `(major, minor, patch)` digits of each tag, from the
`eRENDERDOC_API_Version_*` constants bound in the `define_versions!`
invocation of `src/version.rs`. -/
def versionDigits : VersionTag → Nat × Nat × Nat
  | .V100 => (1, 0, 0)
  | .V101 => (1, 0, 1)
  | .V102 => (1, 0, 2)
  | .V110 => (1, 1, 0)
  | .V111 => (1, 1, 1)
  | .V112 => (1, 1, 2)
  | .V120 => (1, 2, 0)
  | .V130 => (1, 3, 0)
  | .V140 => (1, 4, 0)
  | .V141 => (1, 4, 1)
  | .V142 => (1, 4, 2)
  | .V150 => (1, 5, 0)
  | .V160 => (1, 6, 0)

/-- The numeric wire code (`Version::VERSION`) associated with each tag. -/
def versionCode (v : VersionTag) : Nat :=
  from_digits (versionDigits v).1 (versionDigits v).2.1 (versionDigits v).2.2

/-- The set of `impl ... Minimum<_> for _` clauses generated by the
`@minimum` arm of the `define_versions!` macro in `src/version.rs`,
as a derivability relation: `GenMinimum a b` holds iff trait search can
derive `a : Minimum<b>` from the generated impls.

The macro generates: a blanket impl `impl<V: Version> Minimum<V100> for V`
covering the first tag; for every later tag `t`, `impl Minimum<t> for t`;
and for every later tag `t` with successor `s`,
`impl<V: Minimum<s>> Minimum<t> for V`. -/
inductive GenMinimum : VersionTag → VersionTag → Prop where
  | base (v : VersionTag) : GenMinimum v .V100
  | refl (v : VersionTag) : v ≠ .V100 → GenMinimum v v
  | step (v a b : VersionTag) : a ≠ .V100 → succTag a = some b →
      GenMinimum v b → GenMinimum v a

/-- The set of `impl ... Below<_> for _` clauses generated by the `@below`
arm of the `define_versions!` macro in `src/version.rs`, as a derivability
relation: `GenBelow a b` holds iff trait search can derive `a : Below<b>`.

The macro reverses the tag list and generates, for every consecutive pair
(older `p`, newer `n`): `impl Below<n> for p`; and additionally, whenever
`p` is not the first tag, `impl<V: Below<p>> Below<n> for V`. -/
inductive GenBelow : VersionTag → VersionTag → Prop where
  | direct (p b : VersionTag) : succTag p = some b → GenBelow p b
  | step (v p b : VersionTag) : p ≠ .V100 → succTag p = some b →
      GenBelow v p → GenBelow v b

theorem tagIdx_inj : ∀ a b : VersionTag, tagIdx a = tagIdx b → a = b := by decide

theorem tagIdx_le_twelve : ∀ a : VersionTag, tagIdx a ≤ 12 := by decide

theorem succTag_code_lt : ∀ a b : VersionTag, succTag a = some b →
    versionCode a < versionCode b := by decide

theorem succTag_idx : ∀ a b : VersionTag, succTag a = some b →
    tagIdx b = tagIdx a + 1 := by decide

theorem succTag_isSome_of_idx : ∀ a : VersionTag, tagIdx a < 12 →
    ∃ b, succTag a = some b := by decide

theorem succTag_of_idx : ∀ a b : VersionTag, tagIdx a + 1 = tagIdx b →
    succTag a = some b := by decide

theorem prevTag_exists_of_idx : ∀ b : VersionTag, 1 ≤ tagIdx b →
    ∃ p, succTag p = some b := by decide

theorem ne_V100_of_idx : ∀ a : VersionTag, 1 ≤ tagIdx a → a ≠ .V100 := by decide

theorem code_V100_le : ∀ a : VersionTag, versionCode .V100 ≤ versionCode a := by
  decide

theorem tagIdx_le_of_code_le : ∀ a b : VersionTag,
    versionCode b ≤ versionCode a → tagIdx b ≤ tagIdx a := by decide

theorem tagIdx_lt_of_code_lt : ∀ a b : VersionTag,
    versionCode a < versionCode b → tagIdx a < tagIdx b := by decide

theorem code_lt_of_tagIdx_lt : ∀ a b : VersionTag,
    tagIdx a < tagIdx b → versionCode a < versionCode b := by decide

theorem genMinimum_refl (a : VersionTag) : GenMinimum a a := by
  cases a
  case V100 => exact .base _
  all_goals exact .refl _ (by decide)

theorem genMinimum_code {a b : VersionTag} (h : GenMinimum a b) :
    versionCode b ≤ versionCode a := by
  induction h with
  | base => exact code_V100_le _
  | refl _ => exact Nat.le_refl _
  | step a b _ hs _ ih =>
      exact Nat.le_trans (Nat.le_of_lt (succTag_code_lt a b hs)) ih

theorem genMinimum_of_idx_add : ∀ (n : Nat) (a b : VersionTag),
    tagIdx b + n = tagIdx a → GenMinimum a b := by
  intro n
  induction n with
  | zero =>
      intro a b h
      have : b = a := tagIdx_inj b a (by omega)
      subst this
      exact genMinimum_refl b
  | succ n ih =>
      intro a b h
      by_cases hb : b = .V100
      · subst hb; exact .base a
      · have hlt : tagIdx b < 12 := by
          have := tagIdx_le_twelve a
          omega
        obtain ⟨c, hc⟩ := succTag_isSome_of_idx b hlt
        have hidx : tagIdx c = tagIdx b + 1 := succTag_idx b c hc
        have : GenMinimum a c := ih a c (by omega)
        exact .step a b c hb hc this

theorem genMinimum_of_code_le {a b : VersionTag}
    (h : versionCode b ≤ versionCode a) : GenMinimum a b := by
  have hidx : tagIdx b ≤ tagIdx a := tagIdx_le_of_code_le a b h
  exact genMinimum_of_idx_add (tagIdx a - tagIdx b) a b (by omega)

/-- The generated `Minimum` relation coincides exactly with comparison of
numeric codes. -/
theorem genMinimum_iff_code (a b : VersionTag) :
    GenMinimum a b ↔ versionCode b ≤ versionCode a :=
  ⟨genMinimum_code, genMinimum_of_code_le⟩

theorem genBelow_code {a b : VersionTag} (h : GenBelow a b) :
    versionCode a < versionCode b := by
  induction h with
  | direct b hs => exact succTag_code_lt _ b hs
  | step p b _ hs _ ih =>
      exact Nat.lt_trans ih (succTag_code_lt p b hs)

theorem genBelow_of_idx_add : ∀ (n : Nat) (a b : VersionTag),
    tagIdx a + 1 + n = tagIdx b → GenBelow a b := by
  intro n
  induction n with
  | zero =>
      intro a b h
      exact .direct a b (succTag_of_idx a b (by omega))
  | succ n ih =>
      intro a b h
      obtain ⟨p, hp⟩ := prevTag_exists_of_idx b (by omega)
      have hidx : tagIdx b = tagIdx p + 1 := succTag_idx p b hp
      have hpne : p ≠ .V100 := ne_V100_of_idx p (by omega)
      have : GenBelow a p := ih a p (by omega)
      exact .step a p b hpne hp this

theorem genBelow_of_code_lt {a b : VersionTag}
    (h : versionCode a < versionCode b) : GenBelow a b := by
  have hidx : tagIdx a < tagIdx b := tagIdx_lt_of_code_lt a b h
  exact genBelow_of_idx_add (tagIdx b - tagIdx a - 1) a b (by omega)

/-- The generated `Below` relation coincides exactly with strict comparison
of numeric codes. -/
theorem genBelow_iff_code (a b : VersionTag) :
    GenBelow a b ↔ versionCode a < versionCode b :=
  ⟨genBelow_code, genBelow_of_code_lt⟩

/-- C2: the capability relations generated by `define_versions!` satisfy
`a : Minimum<b>` iff `code a ≥ code b` and `a : Below<b>` iff
`code a < code b`; in particular, for every adjacent pair (`a` older, `b`
newer), `a : Minimum<b>` fails, `b : Minimum<a>` holds, `a : Below<b>`
holds and `b : Below<a>` fails. -/
theorem capability_relations_match_codes :
    (∀ a b : VersionTag,
      (GenMinimum a b ↔ versionCode b ≤ versionCode a) ∧
      (GenBelow a b ↔ versionCode a < versionCode b)) ∧
    (∀ a b : VersionTag, succTag a = some b →
      ¬GenMinimum a b ∧ GenMinimum b a ∧ GenBelow a b ∧ ¬GenBelow b a) := by
  refine ⟨fun a b => ⟨genMinimum_iff_code a b, genBelow_iff_code a b⟩, ?_⟩
  intro a b hs
  have hlt : versionCode a < versionCode b := succTag_code_lt a b hs
  refine ⟨?_, ?_, ?_, ?_⟩
  · intro h
    have := genMinimum_code h
    omega
  · exact genMinimum_of_code_le (Nat.le_of_lt hlt)
  · exact genBelow_of_code_lt hlt
  · intro h
    have := genBelow_code h
    omega

/-- Witness for C2 at the concrete adjacent pair `(V100, V101)`. -/
theorem capability_relations_match_codes_witness :
    ¬GenMinimum .V100 .V101 ∧ GenMinimum .V101 .V100 ∧
      GenBelow .V100 .V101 ∧ ¬GenBelow .V101 .V100 :=
  capability_relations_match_codes.2 .V100 .V101 rfl

/-- C8: on `u8` inputs, `from_digits` computes exactly
`major * 10000 + minor * 100 + patch` (no wraparound can occur), and the
codes it assigns to the version tags strictly increase in list order, so
the code computation totally orders the tags. -/
theorem from_digits_exact_and_orders :
    (∀ major minor patch : Nat, major < 256 → minor < 256 → patch < 256 →
      from_digits major minor patch = major * 10000 + minor * 100 + patch) ∧
    (∀ a b : VersionTag, tagIdx a < tagIdx b → versionCode a < versionCode b) := by
  constructor
  · intro major minor patch hmaj hmin hpat
    unfold from_digits
    rw [Nat.mod_eq_of_lt hmaj, Nat.mod_eq_of_lt hmin, Nat.mod_eq_of_lt hpat]
    rw [Nat.mod_eq_of_lt (show major * 10000 < 2 ^ 32 by omega)]
    rw [Nat.mod_eq_of_lt (show minor * 100 < 2 ^ 32 by omega)]
    rw [Nat.mod_eq_of_lt (show major * 10000 + minor * 100 < 2 ^ 32 by omega)]
    rw [Nat.mod_eq_of_lt
      (show major * 10000 + minor * 100 + patch < 2 ^ 32 by omega)]
  · exact code_lt_of_tagIdx_lt

/-- Witness for C8 at the concrete digits `(1, 6, 0)` and the concrete tag
pair `(V100, V160)`. -/
theorem from_digits_exact_and_orders_witness :
    from_digits 1 6 0 = 1 * 10000 + 6 * 100 + 0 ∧
      versionCode .V100 < versionCode .V160 :=
  ⟨from_digits_exact_and_orders.1 1 6 0 (by decide) (by decide) (by decide),
    from_digits_exact_and_orders.2 .V100 .V160 (by decide)⟩

/-! ## Overlay bit flags (`src/overlay_bits.rs`) -/

/-- `eRENDERDOC_Overlay_Enabled` (value from the in-repo bindings). -/
def eRENDERDOC_Overlay_Enabled : Nat := 0x1

/-- `eRENDERDOC_Overlay_FrameRate`. -/
def eRENDERDOC_Overlay_FrameRate : Nat := 0x2

/-- `eRENDERDOC_Overlay_FrameNumber`. -/
def eRENDERDOC_Overlay_FrameNumber : Nat := 0x4

/-- `eRENDERDOC_Overlay_CaptureList`. -/
def eRENDERDOC_Overlay_CaptureList : Nat := 0x8

/-- `eRENDERDOC_Overlay_Default`, the bitwise-or of the four flags. -/
def eRENDERDOC_Overlay_Default : Nat :=
  eRENDERDOC_Overlay_Enabled |||
    eRENDERDOC_Overlay_FrameRate |||
    eRENDERDOC_Overlay_FrameNumber |||
    eRENDERDOC_Overlay_CaptureList

/-- `OverlayBits<V>` from `src/overlay_bits.rs`: a raw bit pattern plus a
phantom version marker. The `u32` bits are modelled as `Nat`. -/
structure OverlayBits (V : VersionTag) where
  bits : Nat
deriving DecidableEq, Repr

/-- `OverlayBits::from_bits_truncate` from `src/overlay_bits.rs`, keeping the
source's term structure: the or of `bits` masked with each flag constant and
with the default constant. -/
def from_bits_truncate (V : VersionTag) (bits : Nat) : OverlayBits V :=
  ⟨(bits &&& eRENDERDOC_Overlay_Enabled) |||
    (bits &&& eRENDERDOC_Overlay_FrameRate) |||
    (bits &&& eRENDERDOC_Overlay_FrameNumber) |||
    (bits &&& eRENDERDOC_Overlay_CaptureList) |||
    (bits &&& eRENDERDOC_Overlay_Default)⟩

/-- The union of all bits corresponding to a known overlay flag. -/
def overlayKnownMask : Nat :=
  eRENDERDOC_Overlay_Enabled |||
    eRENDERDOC_Overlay_FrameRate |||
    eRENDERDOC_Overlay_FrameNumber |||
    eRENDERDOC_Overlay_CaptureList

/-- C6: for every raw bit pattern, `from_bits_truncate` returns exactly the
input masked with the union of the known overlay flags: every recognized bit
is preserved unchanged and every other bit is dropped. -/
theorem from_bits_truncate_keeps_exactly_known_bits
    (V : VersionTag) (bits : Nat) :
    (from_bits_truncate V bits).bits = bits &&& overlayKnownMask := by
  show (bits &&& eRENDERDOC_Overlay_Enabled) |||
      (bits &&& eRENDERDOC_Overlay_FrameRate) |||
      (bits &&& eRENDERDOC_Overlay_FrameNumber) |||
      (bits &&& eRENDERDOC_Overlay_CaptureList) |||
      (bits &&& eRENDERDOC_Overlay_Default) = bits &&& overlayKnownMask
  unfold overlayKnownMask eRENDERDOC_Overlay_Default
  apply Nat.eq_of_testBit_eq
  intro i
  simp only [Nat.testBit_lor, Nat.testBit_land]
  cases bits.testBit i <;>
    cases (eRENDERDOC_Overlay_Enabled).testBit i <;>
    cases (eRENDERDOC_Overlay_FrameRate).testBit i <;>
    cases (eRENDERDOC_Overlay_FrameNumber).testBit i <;>
    cases (eRENDERDOC_Overlay_CaptureList).testBit i <;>
    rfl

/-- Cross-marker equality of overlay flag sets, from
`impl<V1, V2> PartialEq<OverlayBits<V2>> for OverlayBits<V1>`:
compares the raw bits only. -/
def overlayBeq {V1 V2 : VersionTag} (a : OverlayBits V1) (b : OverlayBits V2) :
    Bool :=
  a.bits == b.bits

/-- Same-marker comparison of overlay flag sets, from
`impl<V> Ord for OverlayBits<V>`: compares the raw bits only. -/
def overlayCmp {V : VersionTag} (a b : OverlayBits V) : Ordering :=
  compare a.bits b.bits

/-- C7: equality of overlay flag values — including across two different
version markers — holds exactly when the raw bits coincide, and the
comparison order of two flag values is exactly the integer order of their
raw bits. -/
theorem overlay_eq_and_order_by_raw_bits :
    (∀ (V1 V2 : VersionTag) (a : OverlayBits V1) (b : OverlayBits V2),
      overlayBeq a b = true ↔ a.bits = b.bits) ∧
    (∀ (V : VersionTag) (a b : OverlayBits V),
      (overlayCmp a b = .lt ↔ a.bits < b.bits) ∧
      (overlayCmp a b = .eq ↔ a.bits = b.bits) ∧
      (overlayCmp a b = .gt ↔ b.bits < a.bits)) := by
  constructor
  · intro V1 V2 a b
    exact beq_iff_eq
  · intro V a b
    refine ⟨?_, ?_, ?_⟩
    · exact Nat.compare_eq_lt
    · exact Nat.compare_eq_eq
    · exact Nat.compare_eq_gt

/-! ## Loader / singleton (`src/loader.rs`) -/

/-- The process-wide loader state of `src/loader.rs`: the `LIBRARY`
`OnceCell` (a failed initializer leaves the cell empty, so only a Bool for
"a library value is cached") and the `INSTANCE_ACTIVE` atomic flag. -/
structure LoaderState where
  libraryLoaded : Bool
  instanceActive : Bool
deriving DecidableEq, Repr

/-- The behavior of the host environment during one `load` call: whether
`load_library` would succeed, whether the `RENDERDOC_GetAPI` symbol lookup
would succeed, and what `RENDERDOC_GetAPI` returns for a requested version
(`some p` models return code 1 with out-pointer `p`; `none` models any other
return code). -/
structure HostBehavior where
  libLoadOk : Bool
  symbolOk : Bool
  getApi : Nat → Option Nat

/-- The error cases of `Error` in `src/error.rs` reachable from `load`. -/
inductive LoadError where
  | library
  | symbol
  | noCompatibleApi
  | multipleInstances
deriving DecidableEq, Repr

/-- `FunctionTable` from `src/loader.rs`: the unique smart pointer wrapping
the raw API entry pointer. -/
structure FunctionTable where
  api : Nat
deriving DecidableEq, Repr

/-- The outcome of one `load` call: its returned value, the loader state it
leaves behind, and which host operations it performed. -/
structure LoadOutcome where
  result : Except LoadError FunctionTable
  state : LoaderState
  libLoadCalled : Bool
  symbolResolved : Bool
  entryCalled : Bool
deriving Repr

/-- The tail of `load` after the `LIBRARY` cell holds a value: the
`INSTANCE_ACTIVE` check, the per-call `RENDERDOC_GetAPI` symbol lookup, the
entry call, and the flag store on the success path (`src/loader.rs`). -/
def loadAfterLib (env : HostBehavior) (version : Nat) (s : LoaderState)
    (libCalled : Bool) : LoadOutcome :=
  if s.instanceActive then
    { result := .error .multipleInstances, state := s,
      libLoadCalled := libCalled, symbolResolved := false,
      entryCalled := false }
  else if env.symbolOk then
    match env.getApi version with
    | some p =>
        { result := .ok ⟨p⟩,
          state := { s with instanceActive := true },
          libLoadCalled := libCalled, symbolResolved := true,
          entryCalled := true }
    | none =>
        { result := .error .noCompatibleApi, state := s,
          libLoadCalled := libCalled, symbolResolved := true,
          entryCalled := true }
  else
    { result := .error .symbol, state := s,
      libLoadCalled := libCalled, symbolResolved := true,
      entryCalled := false }

/-- `load` from `src/loader.rs`: `LIBRARY.get_or_try_init(load_library)`
(reusing a cached library, and leaving the cell empty on failure), then the
instance-active check, symbol lookup, entry call, and flag store. -/
def load (env : HostBehavior) (version : Nat) (s : LoaderState) : LoadOutcome :=
  if s.libraryLoaded then
    loadAfterLib env version s false
  else if env.libLoadOk then
    loadAfterLib env version { s with libraryLoaded := true } true
  else
    { result := .error .library, state := s, libLoadCalled := true,
      symbolResolved := false, entryCalled := false }

/-- `impl Drop for FunctionTable`: stores `false` into `INSTANCE_ACTIVE`. -/
def dropTable (s : LoaderState) : LoaderState :=
  { s with instanceActive := false }

/-- Loader states reachable from process start through any sequence of
`load` calls and handle drops. -/
inductive Reachable : LoaderState → Prop where
  | init : Reachable ⟨false, false⟩
  | load (env : HostBehavior) (version : Nat) {s : LoaderState} :
      Reachable s → Reachable (load env version s).state
  | drop {s : LoaderState} : Reachable s → Reachable (dropTable s)

theorem load_state_library (env : HostBehavior) (version : Nat)
    (s : LoaderState) :
    (load env version s).state.libraryLoaded
      = (s.libraryLoaded || env.libLoadOk) := by
  unfold load loadAfterLib
  rcases s with ⟨lib, act⟩
  cases lib <;> cases act <;> cases h : env.libLoadOk <;>
    cases hs : env.symbolOk <;> simp_all <;>
    cases env.getApi version <;> simp

theorem load_state_active_sets_library (env : HostBehavior) (version : Nat)
    (s : LoaderState) :
    (load env version s).state.instanceActive = true →
      s.instanceActive = true ∨ (load env version s).state.libraryLoaded = true := by
  unfold load loadAfterLib
  rcases s with ⟨lib, act⟩
  cases lib <;> cases act <;> cases h : env.libLoadOk <;>
    cases hs : env.symbolOk <;> simp_all <;>
    cases env.getApi version <;> simp

/-- Invariant: in every reachable loader state, a live instance implies the
library cell holds a value. -/
theorem reachable_active_library {s : LoaderState} (h : Reachable s) :
    s.instanceActive = true → s.libraryLoaded = true := by
  induction h with
  | init => intro h; cases h
  | load env version hr ih =>
      intro hact
      rcases load_state_active_sets_library env _ _ hact with hprev | hlib
      · have hl := ih hprev
        rw [load_state_library]
        simp [hl]
      · exact hlib
  | drop hr ih =>
      intro hact
      cases hact

/-- C1: from any reachable state with a live handle, `load` fails with the
multiple-instances error without calling the host entry function and leaves
the flag set; after the handle is dropped, a `load` against a working host
succeeds. -/
theorem load_while_instance_active
    (s : LoaderState) (env env2 : HostBehavior) (v v2 p : Nat)
    (hr : Reachable s) (hact : s.instanceActive = true)
    (hsym : env2.symbolOk = true) (hapi : env2.getApi v2 = some p) :
    (load env v s).result = .error .multipleInstances ∧
    (load env v s).entryCalled = false ∧
    (load env v s).state = s ∧
    (load env2 v2 (dropTable s)).result = .ok ⟨p⟩ := by
  have hlib : s.libraryLoaded = true := reachable_active_library hr hact
  rcases s with ⟨lib, act⟩
  simp only at hlib hact
  subst hlib hact
  refine ⟨?_, ?_, ?_, ?_⟩
  · simp [load, loadAfterLib]
  · simp [load, loadAfterLib]
  · simp [load, loadAfterLib]
  · simp [load, loadAfterLib, dropTable, hsym, hapi]

/-- A host environment in which everything works and `RENDERDOC_GetAPI`
writes the pointer `7`. -/
def envGood : HostBehavior :=
  { libLoadOk := true, symbolOk := true, getApi := fun _ => some 7 }

/-- A host environment in which mapping the shared library fails. -/
def envLibFail : HostBehavior :=
  { libLoadOk := false, symbolOk := true, getApi := fun _ => some 7 }

/-- The loader state at process start. -/
def initState : LoaderState := ⟨false, false⟩

/-- The loader state after one successful `load` at process start. -/
def stateAfterFirstLoad : LoaderState := (load envGood 10600 initState).state

/-- Witness for C1: after a concrete successful `load`, a second `load`
fails with the multiple-instances error without touching the host entry,
and a `load` after dropping the handle succeeds. -/
theorem load_while_instance_active_witness :
    (load envGood 10600 stateAfterFirstLoad).result
        = .error .multipleInstances ∧
    (load envGood 10600 stateAfterFirstLoad).entryCalled = false ∧
    (load envGood 10600 stateAfterFirstLoad).state = stateAfterFirstLoad ∧
    (load envGood 10600 (dropTable stateAfterFirstLoad)).result = .ok ⟨7⟩ :=
  load_while_instance_active stateAfterFirstLoad envGood envGood 10600 10600 7
    (.load envGood 10600 .init) rfl rfl rfl

/-- C10: on every error return `load` leaves the instance-active flag
unchanged, a success always leaves it set, `load` never clears a set flag,
and dropping the handle clears it. -/
theorem load_flag_discipline (env : HostBehavior) (v : Nat) (s : LoaderState) :
    (∀ e : LoadError, (load env v s).result = .error e →
      (load env v s).state.instanceActive = s.instanceActive) ∧
    (∀ t : FunctionTable, (load env v s).result = .ok t →
      (load env v s).state.instanceActive = true) ∧
    (s.instanceActive = true → (load env v s).state.instanceActive = true) ∧
    (dropTable s).instanceActive = false := by
  unfold load loadAfterLib dropTable
  rcases s with ⟨lib, act⟩
  cases lib <;> cases act <;> cases h : env.libLoadOk <;>
    cases hs : env.symbolOk <;> simp_all <;>
    cases env.getApi v <;> simp

/-- Witness for C10 at concrete inputs: a failed `load` (instance already
active) leaves the flag as it was, a successful `load` leaves it set, and
dropping clears it. -/
theorem load_flag_discipline_witness :
    (load envGood 10600 stateAfterFirstLoad).state.instanceActive
        = stateAfterFirstLoad.instanceActive ∧
    (load envGood 10600 initState).state.instanceActive = true ∧
    (dropTable stateAfterFirstLoad).instanceActive = false :=
  ⟨(load_flag_discipline envGood 10600 stateAfterFirstLoad).1
      .multipleInstances rfl,
    (load_flag_discipline envGood 10600 initState).2.1 ⟨7⟩ rfl,
    (load_flag_discipline envGood 10600 stateAfterFirstLoad).2.2.2⟩

/-- Counterexample for C5: library and symbol resolution failures are not
permanent. A first `load` under a missing library fails with the library
error, yet the very next `load` (host now available) succeeds instead of
returning a cached error; and across two successful `load`s separated by a
drop, the entry symbol is resolved both times rather than exactly once. -/
theorem load_caching_claim_cex :
    (load envLibFail 10600 initState).result = .error .library ∧
    (load envGood 10600 (load envLibFail 10600 initState).state).result
        = .ok ⟨7⟩ ∧
    (load envGood 10600 initState).symbolResolved = true ∧
    (load envGood 10600
        (dropTable (load envGood 10600 initState).state)).symbolResolved
      = true :=
  ⟨rfl, rfl, rfl, rfl⟩

/-- C5 (amended): a successful library mapping is cached and never repeated;
a failed mapping is not cached — the failing `load` leaves the state
unchanged and the next `load` calls the platform loader again; the entry
symbol is resolved anew on every `load` that passes the instance-active
check; and the active flag, once released, permits a fresh `load` to
succeed. -/
theorem load_libLoadCalled (env : HostBehavior) (v : Nat) (s : LoaderState) :
    (load env v s).libLoadCalled = !s.libraryLoaded := by
  unfold load loadAfterLib
  rcases s with ⟨lib, act⟩
  cases lib <;> cases act <;> cases h : env.libLoadOk <;>
    cases hs : env.symbolOk <;> simp_all <;>
    cases env.getApi v <;> simp

theorem load_caching_amended (env env2 : HostBehavior) (v v2 p : Nat)
    (s : LoaderState) :
    (s.libraryLoaded = true →
      (load env v s).libLoadCalled = false ∧
      (load env v s).state.libraryLoaded = true) ∧
    (s.libraryLoaded = false → env.libLoadOk = false →
      (load env v s).result = .error .library ∧
      (load env v s).state = s ∧
      (load env2 v2 s).libLoadCalled = true) ∧
    (s.libraryLoaded = true → s.instanceActive = false →
      (load env v s).symbolResolved = true) ∧
    (s.libraryLoaded = true → env.symbolOk = true → env.getApi v = some p →
      (load env v (dropTable s)).result = .ok ⟨p⟩) := by
  refine ⟨?_, ?_, ?_, ?_⟩
  · intro hlib
    refine ⟨?_, ?_⟩
    · rw [load_libLoadCalled, hlib]
      rfl
    · rw [load_state_library, hlib]
      rfl
  · intro hlib henv
    refine ⟨?_, ?_, ?_⟩
    · rcases s with ⟨lib, act⟩
      simp only at hlib
      subst hlib
      simp [load, loadAfterLib, henv]
    · rcases s with ⟨lib, act⟩
      simp only at hlib
      subst hlib
      simp [load, loadAfterLib, henv]
    · rw [load_libLoadCalled, hlib]
      rfl
  · intro hlib hact
    rcases s with ⟨lib, act⟩
    simp only at hlib hact
    subst hlib hact
    cases hs : env.symbolOk <;> simp [load, loadAfterLib, hs] <;>
      cases env.getApi v <;> simp
  · intro hlib hsym hapi
    rcases s with ⟨lib, act⟩
    simp only at hlib
    subst hlib
    simp [load, loadAfterLib, dropTable, hsym, hapi]

/-- Witness for the amended C5 at concrete inputs. -/
theorem load_caching_amended_witness :
    ((load envGood 10600 stateAfterFirstLoad).libLoadCalled = false ∧
      (load envGood 10600 stateAfterFirstLoad).state.libraryLoaded = true) ∧
    ((load envLibFail 10600 initState).result = .error .library ∧
      (load envLibFail 10600 initState).state = initState ∧
      (load envGood 10600 initState).libLoadCalled = true) ∧
    (load envGood 10600 (dropTable stateAfterFirstLoad)).symbolResolved
        = true ∧
    (load envGood 10600 (dropTable stateAfterFirstLoad)).result = .ok ⟨7⟩ :=
  ⟨(load_caching_amended envGood envGood 10600 10600 7
      stateAfterFirstLoad).1 rfl,
    (load_caching_amended envLibFail envGood 10600 10600 7 initState).2.1
      rfl rfl,
    (load_caching_amended envGood envGood 10600 10600 7
      (dropTable stateAfterFirstLoad)).2.2.1 rfl rfl,
    (load_caching_amended envGood envGood 10600 10600 7
      stateAfterFirstLoad).2.2.2 rfl rfl rfl⟩

/-! ## Handles and the conversion layer (`src/renderdoc.rs`) -/

/-- `RenderDoc<V>` from `src/renderdoc.rs`: a raw entry pointer plus a
phantom version marker. The pointer value is modelled as `Nat`. -/
structure RenderDocHandle (V : VersionTag) where
  entry : Nat
deriving DecidableEq, Repr

/-- `RenderDoc::downgrade` from `src/renderdoc.rs`: destructures the handle
and rebuilds it with the same entry pointer under the predecessor marker.
The `HasPrevious` bound is modelled by the hypothesis that an immediate
predecessor exists in the tag list. -/
def downgrade {V W : VersionTag} (h : RenderDocHandle V)
    (_ : prevTag V = some W) : RenderDocHandle W :=
  ⟨h.entry⟩

/-- The `From` impls generated by `impl_from_versions!` in
`src/renderdoc.rs`: rebuilding the handle with the same entry pointer under
any strictly older marker. -/
def fromNewer {V W : VersionTag} (h : RenderDocHandle V)
    (_ : GenBelow W V) : RenderDocHandle W :=
  ⟨h.entry⟩

/-- C4: `downgrade` is defined exactly when an immediate predecessor exists
(so not for the oldest tag `V100`) and changes only the phantom marker; the
returned handle (and likewise any `From`-based downgrade) carries the
bit-identical entry pointer. -/
theorem downgrade_preserves_pointer :
    (∀ (V W : VersionTag) (h : RenderDocHandle V) (hw : prevTag V = some W),
      (downgrade h hw).entry = h.entry) ∧
    prevTag .V100 = none ∧
    (∀ (V W : VersionTag) (h : RenderDocHandle V) (hb : GenBelow W V),
      (fromNewer h hb).entry = h.entry) :=
  ⟨fun _ _ _ _ => rfl, rfl, fun _ _ _ _ => rfl⟩

/-- Witness for C4: downgrading a concrete `V112` handle to `V111` keeps
the concrete pointer value. -/
theorem downgrade_preserves_pointer_witness :
    (downgrade (V := .V112) (W := .V111) ⟨42⟩ rfl).entry = 42 :=
  downgrade_preserves_pointer.1 .V112 .V111 ⟨42⟩ rfl

/-- Modelled from the spec: `try_upgrade` is not present under `src/`; §4.4
specifies `try_upgrade<U>(h: Handle<V>) -> Result<Handle<U>, Handle<V>>`
where `U: Minimum<V>`, which queries the actual runtime version code,
compares it against `U`'s code, re-tags the same handle on success and
returns the original, unconsumed handle on failure. `runtimeCode` is the
version code reported by the host at runtime. -/
def try_upgrade {V : VersionTag} (U : VersionTag) (runtimeCode : Nat)
    (h : RenderDocHandle V) :
    Except (RenderDocHandle V) (RenderDocHandle U) :=
  if versionCode U ≤ runtimeCode then .ok ⟨h.entry⟩ else .error h

/-- C3: for `U` at least `V`, `try_upgrade::<U>` succeeds by re-tagging the
same handle whenever `U`'s code is at most the runtime-reported code, fails
by returning the original unconsumed handle whenever `U`'s code exceeds it,
and a downgrade followed by a try-upgrade back to the original tag (given
runtime version at least the original) yields `Ok` with a bit-identical
pointer. -/
theorem try_upgrade_checks_runtime_version
    (V U : VersionTag) (rt : Nat) (h : RenderDocHandle V)
    (hmin : GenMinimum U V) :
    (versionCode U ≤ rt → try_upgrade U rt h = .ok ⟨h.entry⟩) ∧
    (rt < versionCode U → try_upgrade U rt h = .error h) ∧
    (∀ (W : VersionTag) (hw : prevTag V = some W), versionCode V ≤ rt →
      try_upgrade V rt (downgrade h hw) = .ok ⟨h.entry⟩) := by
  refine ⟨?_, ?_, ?_⟩
  · intro hle
    simp [try_upgrade, hle]
  · intro hgt
    simp [try_upgrade, Nat.not_le_of_lt hgt]
  · intro W hw hle
    simp [try_upgrade, downgrade, hle]

/-- Witness for C3, mirroring the spec's §8 scenario against a host
reporting 1.4.1 (code 10401): `try_upgrade::<V140>` on a `V100` handle
succeeds, `try_upgrade::<V150>` fails returning the handle, and a
`V112 → V111 → V112` downgrade/upgrade round trip is pointer-identical. -/
theorem try_upgrade_checks_runtime_version_witness :
    try_upgrade (V := .V100) .V140 10401 ⟨42⟩ = .ok ⟨42⟩ ∧
    try_upgrade (V := .V140) .V150 10401 ⟨42⟩ = .error ⟨42⟩ ∧
    try_upgrade .V112 10401 (downgrade (V := .V112) (W := .V111) ⟨42⟩ rfl)
      = .ok ⟨42⟩ :=
  ⟨(try_upgrade_checks_runtime_version .V100 .V140 10401 ⟨42⟩
      (genMinimum_of_code_le (by decide))).1 (by decide),
    (try_upgrade_checks_runtime_version .V140 .V150 10401 ⟨42⟩
      (genMinimum_of_code_le (by decide))).2.1 (by decide),
    (try_upgrade_checks_runtime_version .V112 .V112 10401 ⟨42⟩
      (genMinimum_refl _)).2.2 .V111 rfl (by decide)⟩

/-! ## Two threads calling `load` concurrently (`src/loader.rs`)

In `load`, the `MutexGuard` on the `LIBRARY` cell is held from right after
`get_or_try_init` to the end of the function, so the instance-active check,
the symbol lookup, the `RENDERDOC_GetAPI` call and the flag store all happen
inside the critical section. The model below makes each source line an
atomic step of one of two threads and lets them interleave arbitrarily,
with both threads running against a working host at process start. -/

/-- Program counter for one thread executing `load`. `start`: about to
acquire the `LIBRARY` mutex; `check`: the `INSTANCE_ACTIVE` read; `resolve`:
the symbol lookup; `callEntry`: the `RENDERDOC_GetAPI` call; `setFlag`: the
`INSTANCE_ACTIVE` store plus `Ok` return value construction; `unlock`: the
guard drop on function exit; `done`: returned. -/
inductive ThreadPC where
  | start
  | check
  | resolve
  | callEntry
  | setFlag
  | unlock
  | done
deriving DecidableEq, Fintype, Repr

/-- Shared and per-thread state of the two-thread `load` race. `lock` holds
the id of the thread currently holding the `LIBRARY` mutex; `flag` is
`INSTANCE_ACTIVE`; `resA`/`resB` record each thread's return value once
known (`some true`: `Ok`, `some false`: the multiple-instances error). -/
structure RaceState where
  lock : Option Bool
  flag : Bool
  pcA : ThreadPC
  pcB : ThreadPC
  resA : Option Bool
  resB : Option Bool
deriving DecidableEq, Repr

/-- One atomic step of a single thread executing `load` against a working
host, given the shared lock and flag and the thread's pc and pending
result; returns the updated lock, flag, pc and result. A thread blocked on
the mutex, or already done, stutters. -/
def threadStep (lock : Option Bool) (flag : Bool) (pc : ThreadPC)
    (res : Option Bool) (t : Bool) :
    Option Bool × Bool × ThreadPC × Option Bool :=
  match pc with
  | .start =>
      match lock with
      | none => (some t, flag, .check, res)
      | some _ => (lock, flag, pc, res)
  | .check =>
      if flag then (lock, flag, .unlock, some false)
      else (lock, flag, .resolve, res)
  | .resolve => (lock, flag, .callEntry, res)
  | .callEntry => (lock, flag, .setFlag, res)
  | .setFlag => (lock, true, .unlock, some true)
  | .unlock => (none, flag, .done, res)
  | .done => (lock, flag, pc, res)

/-- One interleaving step: the scheduled thread (`false` = A, `true` = B)
performs its next atomic action. -/
def raceStep (c : RaceState) (t : Bool) : RaceState :=
  if t then
    match threadStep c.lock c.flag c.pcB c.resB true with
    | (lock, flag, pc, res) =>
        { lock := lock, flag := flag, pcA := c.pcA, pcB := pc,
          resA := c.resA, resB := res }
  else
    match threadStep c.lock c.flag c.pcA c.resA false with
    | (lock, flag, pc, res) =>
        { lock := lock, flag := flag, pcA := pc, pcB := c.pcB,
          resA := res, resB := c.resB }

/-- Run a schedule (a list of thread choices) from a configuration. -/
def raceRun (c : RaceState) : List Bool → RaceState
  | [] => c
  | t :: ts => raceRun (raceStep c t) ts

/-- Both threads about to call `load` at process start. -/
def raceInit : RaceState :=
  { lock := none, flag := false, pcA := .start, pcB := .start,
    resA := none, resB := none }

/-- Whether a pc lies inside the mutex-protected critical section. -/
def inCritical : ThreadPC → Bool
  | .start => false
  | .done => false
  | _ => true

/-- Whether a pc lies after the thread's return value has been decided. -/
def pcResSet : ThreadPC → Bool
  | .unlock => true
  | .done => true
  | _ => false

/-- Whether a pc lies strictly between the flag check and the flag store. -/
def pcMidCritical : ThreadPC → Bool
  | .resolve => true
  | .callEntry => true
  | .setFlag => true
  | _ => false

/-- Inductive invariant of the two-thread race: mutual exclusion via the
lock, result values decided exactly after the check resolves, the flag
tracking the existence of a successful return, and errors only ever caused
by an observed set flag. -/
def raceInv (c : RaceState) : Bool :=
  (!(inCritical c.pcA) || c.lock == some false) &&
  (!(inCritical c.pcB) || c.lock == some true) &&
  (if pcResSet c.pcA then c.resA != none else c.resA == none) &&
  (if pcResSet c.pcB then c.resB != none else c.resB == none) &&
  (!(pcMidCritical c.pcA) || !c.flag) &&
  (!(pcMidCritical c.pcB) || !c.flag) &&
  (c.flag == (c.resA == some true || c.resB == some true)) &&
  (!(c.resA == some false) || c.flag) &&
  (!(c.resB == some false) || c.flag) &&
  !((c.resA == some true) && (c.resB == some true))

theorem raceInv_init : raceInv raceInit = true := by decide

theorem raceInv_step : ∀ (lock : Option Bool) (flag : Bool)
    (pcA pcB : ThreadPC) (resA resB : Option Bool) (t : Bool),
    raceInv ⟨lock, flag, pcA, pcB, resA, resB⟩ = true →
    raceInv (raceStep ⟨lock, flag, pcA, pcB, resA, resB⟩ t) = true := by
  decide

theorem raceInv_run : ∀ (sched : List Bool) (c : RaceState),
    raceInv c = true → raceInv (raceRun c sched) = true := by
  intro sched
  induction sched with
  | nil => intro c h; exact h
  | cons t ts ih =>
      intro c h
      rcases c with ⟨lock, flag, pcA, pcB, resA, resB⟩
      exact ih _ (raceInv_step lock flag pcA pcB resA resB t h)

theorem raceInv_terminal : ∀ (lock : Option Bool) (flag : Bool)
    (resA resB : Option Bool),
    raceInv ⟨lock, flag, .done, .done, resA, resB⟩ = true →
    (resA = some true ∧ resB = some false) ∨
    (resA = some false ∧ resB = some true) := by
  decide

/-- C9: under every interleaving of two threads calling `load` concurrently
at process start, if both threads have returned then exactly one obtained
the handle and the other got the multiple-instances error; the check and
set of the flag inside the `LIBRARY` mutex act as one atomic check-and-set,
so the two threads never both observe "no active instance" (both returning
`Ok` is impossible). -/
theorem concurrent_load_exactly_one_succeeds (sched : List Bool)
    (hA : (raceRun raceInit sched).pcA = .done)
    (hB : (raceRun raceInit sched).pcB = .done) :
    ((raceRun raceInit sched).resA = some true ∧
      (raceRun raceInit sched).resB = some false) ∨
    ((raceRun raceInit sched).resA = some false ∧
      (raceRun raceInit sched).resB = some true) := by
  have hinv := raceInv_run sched raceInit raceInv_init
  rcases hc : raceRun raceInit sched with ⟨lock, flag, pcA, pcB, resA, resB⟩
  rw [hc] at hinv hA hB
  simp only at hA hB
  subst hA hB
  exact raceInv_terminal lock flag resA resB hinv

/-- Witness for C9 at a concrete schedule: thread A runs to completion,
then thread B runs; A gets the handle, B the multiple-instances error. -/
theorem concurrent_load_exactly_one_succeeds_witness :
    ((raceRun raceInit
        [false, false, false, false, false, false, true, true, true]).resA
      = some true ∧
      (raceRun raceInit
        [false, false, false, false, false, false, true, true, true]).resB
      = some false) ∨
    ((raceRun raceInit
        [false, false, false, false, false, false, true, true, true]).resA
      = some false ∧
      (raceRun raceInit
        [false, false, false, false, false, false, true, true, true]).resB
      = some true) :=
  concurrent_load_exactly_one_succeeds
    [false, false, false, false, false, false, true, true, true] rfl rfl
